import Mathlib

/-!
Verification of the geometric core of `nyc_street_extractor.py`.

This file gives a shallow embedding of the parts of the program the
claims talk about:

* `convert_coords_to_excel_coords` — the coordinate projector
  (source lines 54–65);
* `draw_line` — the Bresenham-style rasterizer (source lines 67–85);
* `extract_streets` — the spatial filter (source lines 41–52);
* `check_shapefile_files` and the check-then-extract sequencing of
  `main` (source lines 130–142 and 199–202);
* the per-feature export loop of `export_streets_to_excel`
  (source lines 106–116).

Modelling conventions: Python floats are modelled as exact rationals.
Python `int(...)` truncates toward zero; on an exact rational this is
T-division of the numerator by the denominator (`pyInt`).  The
unbounded `while True` loop of `draw_line` is modelled with explicit
fuel `dx + dy + 1`; the termination theorem shows this fuel always
suffices (the result is always `some`).  External collaborators
(geopandas reading, shapely buffering/intersection, the filesystem,
the xlsxwriter worksheet) are modelled as explicit parameters: the
dataset read outcome is an `Except`, the buffer-intersection test is
an oracle function, the filesystem is a map from paths to statuses,
and the worksheet is replaced by the ordered list of cells written.
-/

/-- Python `int(q)` on an exact rational: truncation toward zero,
i.e. T-division of the normalised numerator by the denominator. -/
def pyInt (q : ℚ) : ℤ := Int.tdiv q.num (q.den : ℤ)

/-- Model of `convert_coords_to_excel_coords` (lines 54–65): for each
`(lon, lat)` pair, `x = (lon - center_lon) * scale`,
`y = (lat - center_lat) * scale`, then `excel_x = int(x + 50)` and
`excel_y = int(50 - y)` (the Y axis is reversed). -/
def convert_coords_to_excel_coords (coords : List (ℚ × ℚ))
    (center_lon center_lat scale : ℚ) : List (ℤ × ℤ) :=
  coords.map fun p =>
    let x := (p.1 - center_lon) * scale
    let y := (p.2 - center_lat) * scale
    (pyInt (x + 50), pyInt (50 - y))

/-- Loop state of `draw_line`: the current cell `(x, y)` and the error
accumulator `err`. -/
structure LState where
  x : ℤ
  y : ℤ
  err : ℤ

/-- One pass of the loop body of `draw_line` after the
emit-and-termination check (lines 79–85): `e2 = 2 * err`; if
`e2 > -dy` then `err -= dy; x += sx`; if `e2 < dx` then
`err += dx; y += sy`. -/
def lineStep (dx dy sx sy : ℤ) (s : LState) : LState :=
  let e2 := 2 * s.err
  let s1 := if e2 > -dy then { s with x := s.x + sx, err := s.err - dy } else s
  if e2 < dx then { s1 with y := s1.y + sy, err := s1.err + dx } else s1

/-- The update rule exactly as the specification words it: if
`2*err > -dy` then `err -= dy; x += sx`; if `2*err < dx` then
`err += dx; y += sy` — both comparisons reading twice the error value
the step started with (the code's `e2` snapshot). -/
def specWalkStep (dx dy sx sy : ℤ) (s : LState) : LState :=
  let s1 := if 2 * s.err > -dy then { s with x := s.x + sx, err := s.err - dy } else s
  if 2 * s.err < dx then { s1 with y := s1.y + sy, err := s1.err + dx } else s1

/-- The `while True` loop of `draw_line` (lines 75–85) with explicit
fuel: emit the current cell, stop after emitting the end cell,
otherwise apply the step.  `none` means the fuel ran out before the
loop terminated. -/
def walkGo (step : LState → LState) (ex ey : ℤ) : Nat → LState → Option (List (ℤ × ℤ))
  | 0, _ => none
  | fuel + 1, s =>
    if s.x = ex ∧ s.y = ey then some [(s.x, s.y)]
    else
      match walkGo step ex ey fuel (step s) with
      | none => none
      | some rest => some ((s.x, s.y) :: rest)

/-- Model of `draw_line` (lines 67–85), returning the ordered list of
cells `(x, y)` written to the worksheet: `dx = |end_x - start_x|`,
`dy = |end_y - start_y|`, `sx = 1` if `start_x < end_x` else `-1`,
`sy` likewise, `err = dx - dy`, then the emit/step loop.  The fuel
`dx + dy + 1` is an upper bound on the number of loop iterations; the
termination theorem shows it always suffices. -/
def draw_line (start_x start_y end_x end_y : ℤ) : Option (List (ℤ × ℤ)) :=
  let dx := |end_x - start_x|
  let dy := |end_y - start_y|
  let sx : ℤ := if start_x < end_x then 1 else -1
  let sy : ℤ := if start_y < end_y then 1 else -1
  walkGo (lineStep dx dy sx sy) end_x end_y (dx.toNat + dy.toNat + 1)
    ⟨start_x, start_y, dx - dy⟩

/-- The integer line walk exactly as the specification states it, built
from `specWalkStep` with the same initialisation and stopping rule. -/
def spec_line_walk (start_x start_y end_x end_y : ℤ) : Option (List (ℤ × ℤ)) :=
  let dx := |end_x - start_x|
  let dy := |end_y - start_y|
  let sx : ℤ := if start_x < end_x then 1 else -1
  let sy : ℤ := if start_y < end_y then 1 else -1
  walkGo (specWalkStep dx dy sx sy) end_x end_y (dx.toNat + dy.toNat + 1)
    ⟨start_x, start_y, dx - dy⟩

/-- Two grid cells are 8-adjacent or equal: each coordinate differs by
at most 1. -/
def adjacent (p q : ℤ × ℤ) : Prop := |q.1 - p.1| ≤ 1 ∧ |q.2 - p.2| ≤ 1

/-- The loop state of `draw_line` after `a` horizontal and `b` vertical
steps (the invariant used to analyse the walk). -/
def lineState (x0 y0 sx sy dx dy a b : ℤ) : LState :=
  ⟨x0 + sx * a, y0 + sy * b, (b + 1) * dx - (a + 1) * dy⟩

/-- Feature geometry, as far as the export loop distinguishes it: the
`isinstance(row.geometry, LineString)` test selects single
LineStrings; everything else (multi-part lines, points, …) falls in
the other constructors. -/
inductive Geometry
  | lineString (coords : List (ℚ × ℚ))
  | multiLineString (parts : List (List (ℚ × ℚ)))
  | point (p : ℚ × ℚ)

/-- Model of `extract_streets` (lines 41–52).  The outcome of
`gpd.read_file` is passed in as an `Except` (reading is an external
collaborator); a read failure is re-raised with the wrapping message.
On success the features are filtered by the buffer-intersection test
`intersects`, applied to the buffer radius `radius / 111000` around
the center.  Note the code performs no validation of `radius`. -/
def extract_streets (readResult : Except String (List Geometry)) (center : ℚ × ℚ)
    (radius : ℚ) (intersects : Geometry → ℚ × ℚ → ℚ → Bool) :
    Except String (List Geometry) :=
  match readResult with
  | Except.error e => Except.error ("Error extracting street data: " ++ e)
  | Except.ok streets =>
    Except.ok (streets.filter fun g => intersects g center (radius / 111000))

/-- Status of a path in the modelled filesystem. -/
inductive FileStatus
  | absent
  | unreadable
  | readable
deriving DecidableEq

/-- The companion-file extensions required by `check_shapefile_files`
(line 133). -/
def required_extensions : List String := [".shp", ".shx", ".dbf", ".prj"]

/-- The check loop of `check_shapefile_files` (lines 135–141) over a
list of extensions: the first absent file raises `FileNotFoundError`,
the first unreadable file raises `PermissionError`, otherwise the
check returns `True`. -/
def checkFilesGo (fs : String → FileStatus) (base : String) :
    List String → Except String Bool
  | [] => Except.ok true
  | ext :: rest =>
    match fs (base ++ ext) with
    | FileStatus.absent => Except.error ("Required file not found: " ++ (base ++ ext))
    | FileStatus.unreadable => Except.error ("Cannot read file: " ++ (base ++ ext))
    | FileStatus.readable => checkFilesGo fs base rest

/-- Model of `check_shapefile_files` (lines 130–142): check the four
required companion files in order. -/
def check_shapefile_files (fs : String → FileStatus) (base : String) :
    Except String Bool :=
  checkFilesGo fs base required_extensions

/-- Model of the check-then-extract sequencing of `main` (lines
199–202): `check_shapefile_files` runs first and a raised error aborts
the run, so `extract_streets` (which performs the dataset read and the
spatial filtering) is reached only when the check succeeded. -/
def main_pipeline (fs : String → FileStatus) (base : String)
    (readResult : Except String (List Geometry)) (center : ℚ × ℚ) (radius : ℚ)
    (intersects : Geometry → ℚ × ℚ → ℚ → Bool) : Except String (List Geometry) :=
  match check_shapefile_files fs base with
  | Except.error e => Except.error e
  | Except.ok _ => extract_streets readResult center radius intersects

/-- Cells contributed by one feature in the export loop of
`export_streets_to_excel` (lines 106–116): a single LineString has its
vertices projected (scale defaults to 100) and every consecutive
vertex pair rasterized by `draw_line`; a feature of any other geometry
type fails the `isinstance` test and contributes nothing. -/
def cellsOfFeature (center_lon center_lat : ℚ) (g : Geometry) : List (ℤ × ℤ) :=
  match g with
  | Geometry.lineString coords =>
    let ec := convert_coords_to_excel_coords coords center_lon center_lat 100
    (ec.zip ec.tail).flatMap fun pq => (draw_line pq.1.1 pq.1.2 pq.2.1 pq.2.2).getD []
  | Geometry.multiLineString _ => []
  | Geometry.point _ => []

/-- Model of the feature loop of `export_streets_to_excel` (lines
106–116): the rendering plan is the concatenation, in feature order,
of every feature's rasterized cells. -/
def export_streets_to_excel (streets_data : List Geometry)
    (center_lon center_lat : ℚ) : List (ℤ × ℤ) :=
  streets_data.flatMap (cellsOfFeature center_lon center_lat)

lemma pyInt_eq_floor (q : ℚ) (h : 0 ≤ q) : pyInt q = ⌊q⌋ := by
  rw [Rat.floor_def, pyInt,
    Int.tdiv_eq_ediv (Rat.num_nonneg.mpr h) (Int.natCast_nonneg q.den)]

lemma pyInt_neg (q : ℚ) : pyInt (-q) = -pyInt q := by
  rw [pyInt, pyInt, Rat.neg_num, Rat.neg_den, Int.neg_tdiv]

lemma pyInt_eq (q : ℚ) : pyInt q = if 0 ≤ q then ⌊q⌋ else ⌈q⌉ := by
  split_ifs with h
  · exact pyInt_eq_floor q h
  · have h2 : 0 ≤ -q := by linarith [not_le.mp h]
    have h3 : pyInt (-q) = ⌊-q⌋ := pyInt_eq_floor (-q) h2
    rw [pyInt_neg, Int.floor_neg] at h3
    omega

lemma lineStep_lineState (x0 y0 sx sy dx dy a b : ℤ)
    (ha0 : 0 ≤ a) (ha : a ≤ dx) (hb0 : 0 ≤ b) (hb : b ≤ dy)
    (hne : ¬(a = dx ∧ b = dy)) :
    ∃ a' b',
      lineStep dx dy sx sy (lineState x0 y0 sx sy dx dy a b) =
        lineState x0 y0 sx sy dx dy a' b' ∧
      (a' = a ∨ a' = a + 1) ∧ (b' = b ∨ b' = b + 1) ∧
      a' ≤ dx ∧ b' ≤ dy ∧ a + b < a' + b' := by
  have hxbound : a = dx → b < dy := by
    intro h
    rcases lt_or_eq_of_le hb with h' | h'
    · exact h'
    · exact absurd ⟨h, h'⟩ hne
  have hybound : b = dy → a < dx := by
    intro h
    rcases lt_or_eq_of_le ha with h' | h'
    · exact h'
    · exact absurd ⟨h', h⟩ hne
  have hnx : a = dx → ¬(2 * ((b + 1) * dx - (a + 1) * dy) > -dy) := by
    intro h hcon
    have hb1 : b + 1 ≤ dy := hxbound h
    have hdx0 : 0 ≤ dx := le_trans ha0 ha
    have hprod : (b + 1) * dx ≤ dy * dx := mul_le_mul_of_nonneg_right hb1 hdx0
    rw [h] at hcon
    nlinarith
  have hny : b = dy → ¬(2 * ((b + 1) * dx - (a + 1) * dy) < dx) := by
    intro h hcon
    have ha1 : a + 1 ≤ dx := hybound h
    have hdy0 : 0 ≤ dy := le_trans hb0 hb
    have hprod : (a + 1) * dy ≤ dx * dy := mul_le_mul_of_nonneg_right ha1 hdy0
    rw [h] at hcon
    nlinarith
  by_cases hx : 2 * ((b + 1) * dx - (a + 1) * dy) > -dy
  · by_cases hy : 2 * ((b + 1) * dx - (a + 1) * dy) < dx
    · refine ⟨a + 1, b + 1, ?_, Or.inr rfl, Or.inr rfl, ?_, ?_, by linarith⟩
      · simp only [lineStep, lineState]
        rw [if_pos hx, if_pos hy]
        simp only [LState.mk.injEq]
        refine ⟨by ring, by ring, by ring⟩
      · rcases lt_or_eq_of_le ha with h | h
        · linarith
        · exact absurd hx (hnx h)
      · rcases lt_or_eq_of_le hb with h | h
        · linarith
        · exact absurd hy (hny h)
    · refine ⟨a + 1, b, ?_, Or.inr rfl, Or.inl rfl, ?_, hb, by linarith⟩
      · simp only [lineStep, lineState]
        rw [if_pos hx, if_neg hy]
        simp only [LState.mk.injEq]
        refine ⟨by ring, by ring, by ring⟩
      · rcases lt_or_eq_of_le ha with h | h
        · linarith
        · exact absurd hx (hnx h)
  · by_cases hy : 2 * ((b + 1) * dx - (a + 1) * dy) < dx
    · refine ⟨a, b + 1, ?_, Or.inl rfl, Or.inr rfl, ha, ?_, by linarith⟩
      · simp only [lineStep, lineState]
        rw [if_neg hx, if_pos hy]
        simp only [LState.mk.injEq]
        refine ⟨by ring, by ring, by ring⟩
      · rcases lt_or_eq_of_le hb with h | h
        · linarith
        · exact absurd hy (hny h)
    · exfalso
      have h1 : 2 * ((b + 1) * dx - (a + 1) * dy) ≤ -dy := not_lt.mp hx
      have h2 : dx ≤ 2 * ((b + 1) * dx - (a + 1) * dy) := not_lt.mp hy
      have hdx0 : 0 ≤ dx := le_trans ha0 ha
      have hdy0 : 0 ≤ dy := le_trans hb0 hb
      have hdx : dx = 0 := by linarith
      have hdy : dy = 0 := by linarith
      exact hne ⟨le_antisymm ha (hdx ▸ ha0), le_antisymm hb (hdy ▸ hb0)⟩

lemma walkGo_run (x0 y0 x1 y1 sx sy dx dy : ℤ)
    (hdx : dx = |x1 - x0|) (hdy : dy = |y1 - y0|)
    (hsx : sx = if x0 < x1 then 1 else -1)
    (hsy : sy = if y0 < y1 then 1 else -1) :
    ∀ fuel : ℕ, ∀ a b : ℤ, 0 ≤ a → a ≤ dx → 0 ≤ b → b ≤ dy →
      dx - a + (dy - b) < (fuel : ℤ) →
      ∃ l, walkGo (lineStep dx dy sx sy) x1 y1 fuel
          (lineState x0 y0 sx sy dx dy a b) = some l ∧
        l.head? = some (x0 + sx * a, y0 + sy * b) ∧
        l.getLast? = some (x1, y1) ∧ List.Chain' adjacent l := by
  have hsx1 : sx = 1 ∨ sx = -1 := by
    rw [hsx]; split_ifs <;> simp
  have hsy1 : sy = 1 ∨ sy = -1 := by
    rw [hsy]; split_ifs <;> simp
  have hsxne : sx ≠ 0 := by rcases hsx1 with h | h <;> rw [h] <;> norm_num
  have hsyne : sy ≠ 0 := by rcases hsy1 with h | h <;> rw [h] <;> norm_num
  have hx1 : x0 + sx * dx = x1 := by
    rcases lt_or_le x0 x1 with h | h
    · rw [hsx, if_pos h, hdx, abs_of_nonneg (by linarith)]; ring
    · rw [hsx, if_neg (not_lt.mpr h), hdx, abs_of_nonpos (by linarith)]; ring
  have hy1 : y0 + sy * dy = y1 := by
    rcases lt_or_le y0 y1 with h | h
    · rw [hsy, if_pos h, hdy, abs_of_nonneg (by linarith)]; ring
    · rw [hsy, if_neg (not_lt.mpr h), hdy, abs_of_nonpos (by linarith)]; ring
  have hxiff : ∀ c : ℤ, x0 + sx * c = x1 ↔ c = dx := by
    intro c
    constructor
    · intro h
      have h2 : sx * c = sx * dx := by linarith [hx1]
      exact mul_left_cancel₀ hsxne h2
    · rintro rfl
      exact hx1
  have hyiff : ∀ c : ℤ, y0 + sy * c = y1 ↔ c = dy := by
    intro c
    constructor
    · intro h
      have h2 : sy * c = sy * dy := by linarith [hy1]
      exact mul_left_cancel₀ hsyne h2
    · rintro rfl
      exact hy1
  intro fuel
  induction fuel with
  | zero =>
    intro a b ha0 ha hb0 hb hfuel
    exfalso
    push_cast at hfuel
    linarith
  | succ n ih =>
    intro a b ha0 ha hb0 hb hfuel
    by_cases hend : a = dx ∧ b = dy
    · obtain ⟨h1, h2⟩ := hend
      refine ⟨[(x1, y1)], ?_, ?_, by simp, by simp⟩
      · simp only [walkGo, lineState]
        rw [if_pos ⟨by rw [h1]; exact hx1, by rw [h2]; exact hy1⟩]
        rw [h1, h2, hx1, hy1]
      · simp only [List.head?_cons, Option.some.injEq, Prod.mk.injEq]
        rw [h1, h2]
        exact ⟨hx1.symm, hy1.symm⟩
    · obtain ⟨a', b', hstep, ha', hb', ha'le, hb'le, hsum⟩ :=
        lineStep_lineState x0 y0 sx sy dx dy a b ha0 ha hb0 hb hend
      have ha'0 : 0 ≤ a' := by rcases ha' with rfl | rfl <;> linarith
      have hb'0 : 0 ≤ b' := by rcases hb' with rfl | rfl <;> linarith
      obtain ⟨l', hl', hhead', hlast', hchain'⟩ :=
        ih a' b' ha'0 ha'le hb'0 hb'le (by push_cast at hfuel ⊢; linarith)
      have hcond : ¬((lineState x0 y0 sx sy dx dy a b).x = x1 ∧
          (lineState x0 y0 sx sy dx dy a b).y = y1) := by
        simp only [lineState]
        rintro ⟨hh1, hh2⟩
        exact hend ⟨(hxiff a).mp hh1, (hyiff b).mp hh2⟩
      rcases l' with _ | ⟨c, t⟩
      · simp at hhead'
      have hc : c = (x0 + sx * a', y0 + sy * b') := by
        simpa using hhead'
      refine ⟨(x0 + sx * a, y0 + sy * b) :: c :: t, ?_, by simp, ?_, ?_⟩
      · simp only [walkGo]
        rw [if_neg hcond, hstep, hl']
        simp [lineState]
      · rw [List.getLast?_cons_cons]
        exact hlast'
      · rw [List.chain'_cons]
        refine ⟨?_, hchain'⟩
        rw [hc]
        constructor
        · have h3 : x0 + sx * a' - (x0 + sx * a) = sx * (a' - a) := by ring
          simp only [h3, abs_mul]
          have hsxabs : |sx| = 1 := by
            rcases hsx1 with h | h <;> rw [h] <;> norm_num
          rw [hsxabs, one_mul]
          rcases ha' with rfl | rfl
          · simp
          · rw [add_sub_cancel_left]
            norm_num
        · have h3 : y0 + sy * b' - (y0 + sy * b) = sy * (b' - b) := by ring
          simp only [h3, abs_mul]
          have hsyabs : |sy| = 1 := by
            rcases hsy1 with h | h <;> rw [h] <;> norm_num
          rw [hsyabs, one_mul]
          rcases hb' with rfl | rfl
          · simp
          · rw [add_sub_cancel_left]
            norm_num

lemma draw_line_run (x0 y0 x1 y1 : ℤ) :
    ∃ l, draw_line x0 y0 x1 y1 = some l ∧ l.head? = some (x0, y0) ∧
      l.getLast? = some (x1, y1) ∧ List.Chain' adjacent l := by
  obtain ⟨l, hl, hhead, hlast, hchain⟩ :=
    walkGo_run x0 y0 x1 y1 (if x0 < x1 then 1 else -1) (if y0 < y1 then 1 else -1)
      (|x1 - x0|) (|y1 - y0|) rfl rfl rfl rfl
      ((|x1 - x0|).toNat + (|y1 - y0|).toNat + 1) 0 0 le_rfl (abs_nonneg _)
      le_rfl (abs_nonneg _)
      (by
        push_cast [Int.toNat_of_nonneg (abs_nonneg (x1 - x0)),
          Int.toNat_of_nonneg (abs_nonneg (y1 - y0))]
        linarith)
  refine ⟨l, ?_, by simpa using hhead, hlast, hchain⟩
  rw [← hl]
  simp only [draw_line, lineState]
  norm_num
lemma checkFilesGo_error (fs : String → FileStatus) (base : String) :
    ∀ exts : List String, (∃ ext ∈ exts, fs (base ++ ext) ≠ FileStatus.readable) →
      ∃ msg, checkFilesGo fs base exts = Except.error msg := by
  intro exts
  induction exts with
  | nil =>
    rintro ⟨ext, hmem, _⟩
    exact absurd hmem (List.not_mem_nil ext)
  | cons e rest ih =>
    rintro ⟨ext, hmem, hne⟩
    cases hfe : fs (base ++ e) with
    | absent =>
      exact ⟨"Required file not found: " ++ (base ++ e), by simp [checkFilesGo, hfe]⟩
    | unreadable =>
      exact ⟨"Cannot read file: " ++ (base ++ e), by simp [checkFilesGo, hfe]⟩
    | readable =>
      rcases List.mem_cons.mp hmem with rfl | hmem'
      · exact absurd hfe hne
      · obtain ⟨msg, hmsg⟩ := ih ⟨ext, hmem', hne⟩
        exact ⟨msg, by simp [checkFilesGo, hfe, hmsg]⟩

/-- C1 counterexample: at `lon = -101/200`, `lat = 0`, center `(0, 0)`,
scale `100`, the intermediate value is `x + 50 = -1/2`; the code's
`int` cast yields column `0`, while the claimed
floor-toward-negative-infinity semantics would yield `-1`. -/
theorem convert_floor_claim_counterexample :
    convert_coords_to_excel_coords [((-101 : ℚ)/200, 0)] 0 0 100 = [(0, 50)] ∧
      ⌊(((-101 : ℚ)/200) - 0) * 100 + 50⌋ = -1 ∧ ((0 : ℤ) ≠ -1) := by
  refine ⟨?_, ?_, by decide⟩
  · simp only [convert_coords_to_excel_coords, List.map_cons, List.map_nil, pyInt_eq]
    norm_num [Int.floor_eq_iff, Int.ceil_eq_iff]
  · norm_num [Int.floor_eq_iff]

/-- C1 (amended): for every coordinate, center and scale, the projector
returns `column = int((lon - center_lon) * scale + 50)` and
`row = int(50 - (lat - center_lat) * scale)`, where `int` truncates
toward zero: the floor for nonnegative arguments and the ceiling for
negative ones — not floor toward negative infinity throughout. -/
theorem convert_coords_truncates_toward_zero (coords : List (ℚ × ℚ))
    (center_lon center_lat scale : ℚ) :
    convert_coords_to_excel_coords coords center_lon center_lat scale =
      coords.map fun p =>
        (if 0 ≤ (p.1 - center_lon) * scale + 50
          then ⌊(p.1 - center_lon) * scale + 50⌋
          else ⌈(p.1 - center_lon) * scale + 50⌉,
         if 0 ≤ 50 - (p.2 - center_lat) * scale
          then ⌊50 - (p.2 - center_lat) * scale⌋
          else ⌈50 - (p.2 - center_lat) * scale⌉) := by
  simp only [convert_coords_to_excel_coords]
  congr 1
  funext p
  simp only [pyInt_eq]

/-- C2: for every pair of integer grid cells, the rasterizer emits
exactly the cell sequence of the line walk as the spec states it
(`dx = |x1-x0|`, `dy = |y1-y0|`, `sx`, `sy` as stated, `err = dx - dy`;
emit the current cell each step, stop after emitting the end cell;
if `2*err > -dy` then `err -= dy; x += sx`; if `2*err < dx` then
`err += dx; y += sy`, both comparisons on the error value the step
started with). -/
theorem draw_line_eq_spec_line_walk (start_x start_y end_x end_y : ℤ) :
    draw_line start_x start_y end_x end_y =
      spec_line_walk start_x start_y end_x end_y := rfl

/-- C3: the rasterizer's loop always terminates: for every pair of
integer grid cells (including negative and far out-of-grid ones) the
fuel `dx + dy + 1` suffices and `draw_line` returns an actual finite
cell list. -/
theorem draw_line_terminates (start_x start_y end_x end_y : ℤ) :
    ∃ l, draw_line start_x start_y end_x end_y = some l := by
  obtain ⟨l, hl, -, -, -⟩ := draw_line_run start_x start_y end_x end_y
  exact ⟨l, hl⟩

/-- C4: for every pair of cells with start ≠ end, the emitted sequence
has the start cell as its first element and the end cell as its last. -/
theorem draw_line_first_last (start_x start_y end_x end_y : ℤ) (l : List (ℤ × ℤ))
    (hne : (start_x, start_y) ≠ (end_x, end_y))
    (hl : draw_line start_x start_y end_x end_y = some l) :
    l.head? = some (start_x, start_y) ∧ l.getLast? = some (end_x, end_y) := by
  obtain ⟨l', hl', hhead, hlast, -⟩ := draw_line_run start_x start_y end_x end_y
  have he : l = l' := Option.some_inj.mp (hl.symm.trans hl')
  rw [he]
  exact ⟨hhead, hlast⟩

/-- Witness for C4 on the concrete segment from (0,0) to (2,1). -/
theorem draw_line_first_last_witness :
    ([((0 : ℤ), (0 : ℤ)), (1, 0), (2, 1)]).head? = some (0, 0) ∧
      ([((0 : ℤ), (0 : ℤ)), (1, 0), (2, 1)]).getLast? = some (2, 1) :=
  draw_line_first_last 0 0 2 1 [(0, 0), (1, 0), (2, 1)] (by decide) (by decide)

/-- C5: every two consecutive cells of the emitted sequence differ by
at most 1 in the column coordinate and at most 1 in the row
coordinate: the rasterized path is 8-connected. -/
theorem draw_line_eight_connected (start_x start_y end_x end_y : ℤ) (l : List (ℤ × ℤ))
    (hl : draw_line start_x start_y end_x end_y = some l) :
    List.Chain' adjacent l := by
  obtain ⟨l', hl', -, -, hchain⟩ := draw_line_run start_x start_y end_x end_y
  have he : l = l' := Option.some_inj.mp (hl.symm.trans hl')
  rw [he]
  exact hchain

/-- Witness for C5 on the concrete segment from (3,-2) to (-1,5). -/
theorem draw_line_eight_connected_witness :
    List.Chain' adjacent
      [((3 : ℤ), (-2 : ℤ)), (2, -1), (2, 0), (1, 1), (1, 2), (0, 3), (0, 4), (-1, 5)] :=
  draw_line_eight_connected 3 (-2) (-1) 5
    [(3, -2), (2, -1), (2, 0), (1, 1), (1, 2), (0, 3), (0, 4), (-1, 5)] (by decide)

/-- C6: invoking the rasterizer with start = end emits exactly one
cell, equal to the shared point — the loop body runs once, detects
start = end and exits. -/
theorem draw_line_single_point (px py : ℤ) :
    draw_line px py px py = some [(px, py)] := by
  simp [draw_line, walkGo]

/-- C7 counterexample: with center `(-73.9857, 40.7484)` and scale 100
the code projects the end point `(-73.9850, 40.7490)` to `(50, 49)`:
the column is 50, which is not strictly greater than 50 as the claim
requires (the eastward offset `0.0007° × 100 = 0.07` does not reach
the next column). -/
theorem project_round_trip_counterexample :
    convert_coords_to_excel_coords [((-73985 : ℚ)/1000, (40749 : ℚ)/1000)]
        ((-739857 : ℚ)/10000) ((407484 : ℚ)/10000) 100 = [(50, 49)] ∧
      ¬((50 : ℤ) < 50) := by
  refine ⟨?_, by decide⟩
  simp only [convert_coords_to_excel_coords, List.map_cons, List.map_nil, pyInt_eq]
  norm_num [Int.floor_eq_iff, Int.ceil_eq_iff]

/-- C7 (amended): the start point projects to `(50, 50)` and the end
point to `(50, 49)`: the end's row 49 is strictly below 50 as claimed,
but its column equals 50 instead of strictly exceeding it. -/
theorem project_round_trip_cells :
    convert_coords_to_excel_coords
        [((-739857 : ℚ)/10000, (407484 : ℚ)/10000),
         ((-73985 : ℚ)/1000, (40749 : ℚ)/1000)]
        ((-739857 : ℚ)/10000) ((407484 : ℚ)/10000) 100 = [(50, 50), (50, 49)] ∧
      (49 : ℤ) < 50 := by
  refine ⟨?_, by decide⟩
  simp only [convert_coords_to_excel_coords, List.map_cons, List.map_nil, pyInt_eq]
  norm_num [Int.floor_eq_iff, Int.ceil_eq_iff]

/-- C8 counterexample: with radius `-5 ≤ 0` and a successfully read
(empty) collection, `extract_streets` does not fail with any error: it
returns a feature subset (`Except.ok`), contrary to the claimed
defensive `ValidationError`. -/
theorem extract_streets_no_error_counterexample :
    (-5 : ℚ) ≤ 0 ∧
      extract_streets (Except.ok ([] : List Geometry)) (0, 0) (-5)
        (fun _ _ _ => true) = Except.ok [] :=
  ⟨by norm_num, rfl⟩

/-- C8 (amended): `extract_streets` performs no radius validation:
for every feature collection and every radius r ≤ 0 it still returns
`Except.ok` of the intersection-filtered subset (with buffer radius
r / 111000), raising no `ValidationError`. -/
theorem extract_streets_returns_subset (streets : List Geometry) (center : ℚ × ℚ)
    (radius : ℚ) (intersects : Geometry → ℚ × ℚ → ℚ → Bool) (h : radius ≤ 0) :
    extract_streets (Except.ok streets) center radius intersects =
      Except.ok (streets.filter fun g => intersects g center (radius / 111000)) := rfl

/-- Witness for C8's amended theorem at radius 0 with an empty dataset. -/
theorem extract_streets_returns_subset_witness :
    extract_streets (Except.ok ([] : List Geometry)) (0, 0) 0 (fun _ _ _ => true) =
      Except.ok [] := by
  have h := extract_streets_returns_subset [] (0, 0) 0 (fun _ _ _ => true) le_rfl
  simpa using h

/-- C9: if any of the four required companion files is missing or
unreadable, `check_shapefile_files` fails with an error, and the
pipeline surfaces exactly that error regardless of the dataset read
outcome, the radius and the intersection test — so the spatial filter
is never invoked and no feature is returned. -/
theorem missing_companion_file_aborts_pipeline (fs : String → FileStatus) (base : String)
    (h : ∃ ext ∈ required_extensions, fs (base ++ ext) ≠ FileStatus.readable) :
    ∃ msg, check_shapefile_files fs base = Except.error msg ∧
      ∀ (readResult : Except String (List Geometry)) (center : ℚ × ℚ) (radius : ℚ)
        (intersects : Geometry → ℚ × ℚ → ℚ → Bool),
        main_pipeline fs base readResult center radius intersects =
          Except.error msg := by
  obtain ⟨msg, hmsg⟩ := checkFilesGo_error fs base required_extensions h
  refine ⟨msg, hmsg, fun readResult center radius intersects => ?_⟩
  simp only [main_pipeline, check_shapefile_files] at hmsg ⊢
  rw [hmsg]

/-- Witness for C9 on a filesystem in which every path is absent. -/
theorem missing_companion_file_aborts_pipeline_witness :
    ∃ msg, check_shapefile_files (fun _ => FileStatus.absent) "streets" =
        Except.error msg ∧
      ∀ (readResult : Except String (List Geometry)) (center : ℚ × ℚ) (radius : ℚ)
        (intersects : Geometry → ℚ × ℚ → ℚ → Bool),
        main_pipeline (fun _ => FileStatus.absent) "streets" readResult center radius
          intersects = Except.error msg :=
  missing_companion_file_aborts_pipeline (fun _ => FileStatus.absent) "streets"
    ⟨".shp", by simp [required_extensions], by simp⟩

/-- C10: during rendering-plan composition, a feature whose geometry is
not a single LineString contributes no cells and is silently skipped:
removing it from the feature list leaves the exported cell list
unchanged. -/
theorem export_skips_non_linestring (fs1 fs2 : List Geometry) (g : Geometry)
    (center_lon center_lat : ℚ)
    (h : ∀ coords, g ≠ Geometry.lineString coords) :
    cellsOfFeature center_lon center_lat g = [] ∧
      export_streets_to_excel (fs1 ++ g :: fs2) center_lon center_lat =
        export_streets_to_excel (fs1 ++ fs2) center_lon center_lat := by
  have hg : cellsOfFeature center_lon center_lat g = [] := by
    cases g with
    | lineString coords => exact absurd rfl (h coords)
    | multiLineString parts => rfl
    | point p => rfl
  refine ⟨hg, ?_⟩
  simp [export_streets_to_excel, List.flatMap_append, List.flatMap_cons, hg]

/-- Witness for C10 on a point-geometry feature. -/
theorem export_skips_non_linestring_witness :
    cellsOfFeature 0 0 (Geometry.point (1, 2)) = [] ∧
      export_streets_to_excel ([] ++ Geometry.point (1, 2) :: []) 0 0 =
        export_streets_to_excel ([] ++ []) 0 0 :=
  export_skips_non_linestring [] [] (Geometry.point (1, 2)) 0 0
    (fun coords hc => Geometry.noConfusion hc)
